import Mathlib

/-!
# Event-Attendance: shallow embedding and verification

This file embeds the core of the Event-Attendance application
(`app.py` and `email_service.py`) in Lean 4 and proves properties of the
attendance lifecycle, the approval workflow and the digest scheduler.

Modelling conventions:
* the SQLite database is a record of lists, one per table, plus the
  AUTOINCREMENT counters;
* nullable TEXT columns are `Option String`, nullable INTEGER columns are
  `Option Nat`;
* ISO-8601 timestamp strings (which SQLite compares lexicographically,
  matching chronological order) are modelled as `Nat`;
* SQL `=` on nullable columns is `sqlEqS` (`NULL = x` is never true);
* Python truthiness of an optional string (`if not branch`) is `pyTruthy`
  (`None` and `""` are falsy);
* Python's `x in "organiser"` substring test (used by the role checks of
  `add_scan` / `view_event` / `scan_lookup`) is `pyInStr`;
* the SMTP transport (`send_email`) is an external collaborator and is
  modelled as an oracle `sendOk : String → Bool` giving the dispatch
  outcome per recipient address;
* `ORDER BY` is `List.insertionSort` with the corresponding key relation.
-/

/-- Row of the `students` table (`roll TEXT PRIMARY KEY, name TEXT, branch TEXT`). -/
structure Student where
  roll : String
  name : Option String
  branch : Option String
deriving Repr, DecidableEq

/-- Row of the `users` table. -/
structure User where
  id : Nat
  name : String
  email : String
  role : String
  branch : Option String
deriving Repr, DecidableEq

/-- Row of the `events` table (fields not read by the core are omitted). -/
structure Event where
  id : Nat
  title : String
  description : String
deriving Repr, DecidableEq

/-- Row of the `attendance` table. -/
structure AttendanceRecord where
  id : Nat
  event_id : Nat
  roll : String
  scanned_at : Nat
  organiser_id : Nat
  status : String
  hod_id : Option Nat
  hod_action_at : Option Nat
deriving Repr, DecidableEq

/-- Row of the `sent_emails` table (`UNIQUE(attendance_id, email_time)`). -/
structure SentEmail where
  id : Nat
  attendance_id : Nat
  sent_at : Nat
  email_time : String
deriving Repr, DecidableEq

/-- The database state: the five tables plus the AUTOINCREMENT counters. -/
structure DB where
  users : List User
  students : List Student
  events : List Event
  attendance : List AttendanceRecord
  sent_emails : List SentEmail
  next_attendance_id : Nat
  next_sent_id : Nat
deriving Repr, DecidableEq

/-- SQL equality on nullable TEXT columns: `NULL = x` is never true. -/
def sqlEqS : Option String → Option String → Bool
  | some a, some b => a == b
  | _, _ => false

/-- Python truthiness of an optional string: `None` and `""` are falsy. -/
def pyTruthy : Option String → Bool
  | none => false
  | some s => !s.isEmpty

/-- `isPrefixL needle hay` : `needle` is a prefix of `hay` (on char lists). -/
def isPrefixL : List Char → List Char → Bool
  | [], _ => true
  | _ :: _, [] => false
  | a :: as, b :: bs => a == b && isPrefixL as bs

/-- `containsL needle hay` : `needle` occurs as a contiguous sublist of `hay`. -/
def containsL (needle : List Char) : List Char → Bool
  | [] => needle.isEmpty
  | c :: t => isPrefixL needle (c :: t) || containsL needle t

/-- Python's `needle in hay` on strings: substring containment.  The role
checks of `add_scan`, `scan_lookup` and `view_event` are written
`user["role"] in ("organiser")`, which in Python is this substring test
(the parentheses do not make a tuple). -/
def pyInStr (needle hay : String) : Bool :=
  containsL needle.data hay.data

/-- `SELECT ... FROM students WHERE roll=?` (roll is the primary key). -/
def findStudent (db : DB) (roll : String) : Option Student :=
  db.students.find? (fun s => s.roll == roll)

/-- `SELECT * FROM events WHERE id=?`. -/
def findEvent (db : DB) (event_id : Nat) : Option Event :=
  db.events.find? (fun e => e.id == event_id)

/-- `SELECT COUNT(*) FROM attendance WHERE event_id=?`. -/
def countTotal (db : DB) (event_id : Nat) : Nat :=
  (db.attendance.filter (fun a => a.event_id == event_id)).length

/-- `SELECT COUNT(*) FROM attendance WHERE event_id=? AND status=?`. -/
def countStatus (db : DB) (event_id : Nat) (st : String) : Nat :=
  (db.attendance.filter (fun a => a.event_id == event_id && a.status == st)).length

/-- `EXISTS` of a `sent_emails` row for `(attendance_id, email_time)`; this is
what the `LEFT JOIN sent_emails ... WHERE se.id IS NULL` test of
`get_unsent_attendance_for_hod` checks. -/
def hasMarker (db : DB) (attendance_id : Nat) (email_time : String) : Bool :=
  db.sent_emails.any (fun se => se.attendance_id == attendance_id && se.email_time == email_time)

/-- One row of `SELECT a.*, s.name as student_name, s.branch as branch FROM
attendance a LEFT JOIN students s ON a.roll=s.roll`.  `sRoll` carries the
joined `s.roll` (NULL when the student is absent), which the query's
`ORDER BY s.roll` reads even though it is not in the SELECT list. -/
structure JoinedRow where
  attRec : AttendanceRecord
  sRoll : Option String
  student_name : Option String
  branch : Option String
deriving Repr, DecidableEq

/-- The LEFT JOIN of one attendance row with `students`. -/
def leftJoinStudent (db : DB) (a : AttendanceRecord) : JoinedRow :=
  match findStudent db a.roll with
  | some s => ⟨a, some s.roll, s.name, s.branch⟩
  | none => ⟨a, none, none, none⟩

/-- SQLite `ORDER BY s.roll ASC` key: NULLs sort first, then text order. -/
def optRollLeB : Option String → Option String → Bool
  | none, _ => true
  | some _, none => false
  | some a, some b => decide (a ≤ b)

/-- The `sort` query parameter of `view_event`: `roll` (default) or `scanned_at`. -/
inductive SortKey where
  | byRoll
  | byScannedDesc
deriving Repr, DecidableEq

/-- The ORDER BY relation of `view_event` for a given sort key:
`s.roll ASC` or `a.scanned_at DESC`. -/
def viewLeB (sk : SortKey) (x y : JoinedRow) : Bool :=
  match sk with
  | .byRoll => optRollLeB x.sRoll y.sRoll
  | .byScannedDesc => decide (y.attRec.scanned_at ≤ x.attRec.scanned_at)

/-- Propositional form of `viewLeB`, for `List.insertionSort`. -/
def viewLe (sk : SortKey) (x y : JoinedRow) : Prop :=
  viewLeB sk x y = true

instance (sk : SortKey) : DecidableRel (viewLe sk) := fun x y => by
  unfold viewLe; infer_instance

/-- Result of the `view_event` route (HTML rendering abstracted away:
only which rows are handed to the template matters). -/
inductive EventView where
  | redirectLogin
  | notFound
  | organiserView (rows : List JoinedRow)
  | hodView (rows : List JoinedRow)
deriving Repr, DecidableEq

/-- `view_event` (`app.py`): organisers get the unfiltered LEFT JOIN for the
event; hods additionally get `AND s.branch=?` with their own branch; any
other role gets the hod template with no rows.  The organiser check is
Python's `user["role"] in ("organiser")` substring test. -/
def view_event (db : DB) (userOpt : Option User) (event_id : Nat) (sk : SortKey) : EventView :=
  match userOpt with
  | none => .redirectLogin
  | some user =>
    match findEvent db event_id with
    | none => .notFound
    | some _ =>
      let joined := (db.attendance.filter (fun a => a.event_id == event_id)).map (leftJoinStudent db)
      if pyInStr user.role "organiser" then
        .organiserView (List.insertionSort (viewLe sk) joined)
      else if user.role == "hod" then
        .hodView (List.insertionSort (viewLe sk) (joined.filter (fun j => sqlEqS j.branch user.branch)))
      else
        .hodView []

/-- JSON response of `add_scan`: the `counts` object is modelled as an
association list mirroring the keys the code actually emits. -/
inductive ScanResponse where
  | unauthorized
  | ok (scanned_at : Nat) (row : Option JoinedRow) (counts : List (String × Nat))
deriving Repr, DecidableEq

/-- `add_scan` (`app.py`): after the organiser-substring role check, insert a
new attendance row with status `'Pending'` and NULL reviewer fields, fetch it
back joined with `students`, and recompute the event's counts.  The code
computes `total`, `pending` and `approved` only. -/
def add_scan (db : DB) (userOpt : Option User) (event_id : Nat) (roll : String) (now : Nat) :
    DB × ScanResponse :=
  match userOpt with
  | none => (db, .unauthorized)
  | some user =>
    if !pyInStr user.role "organiser" then (db, .unauthorized)
    else
      let newRec : AttendanceRecord :=
        ⟨db.next_attendance_id, event_id, roll, now, user.id, "Pending", none, none⟩
      let db' : DB :=
        { db with attendance := db.attendance ++ [newRec],
                  next_attendance_id := db.next_attendance_id + 1 }
      let row := (db'.attendance.find? (fun a => a.id == newRec.id)).map (leftJoinStudent db')
      let counts : List (String × Nat) :=
        [("total", countTotal db' event_id),
         ("pending", countStatus db' event_id "Pending"),
         ("approved", countStatus db' event_id "Approved")]
      (db', .ok now row counts)

/-- The attendance row inserted by `add_scan`. -/
def scanInsert (db : DB) (u : User) (event_id : Nat) (roll : String) (now : Nat) :
    AttendanceRecord :=
  ⟨db.next_attendance_id, event_id, roll, now, u.id, "Pending", none, none⟩

/-- The database state after the insert of `add_scan`. -/
def scanDb (db : DB) (u : User) (event_id : Nat) (roll : String) (now : Nat) : DB :=
  { db with attendance := db.attendance ++ [scanInsert db u event_id roll now],
            next_attendance_id := db.next_attendance_id + 1 }

/-- `UPDATE attendance SET status=?, hod_id=?, hod_action_at=? WHERE id=?`. -/
def setBoth (action : String) (hodId t aid : Nat) (l : List AttendanceRecord) :
    List AttendanceRecord :=
  l.map (fun a =>
    if a.id == aid then { a with status := action, hod_id := some hodId, hod_action_at := some t }
    else a)

/-- JSON response of `hod_action`. -/
inductive SingleResponse where
  | unauthorized
  | ok
deriving Repr, DecidableEq

/-- `hod_action` (`app.py`): a hod sets status, reviewer and review timestamp
for one attendance id; each of the three recognised actions runs the same
UPDATE with its literal status.  An unrecognised action runs no UPDATE but
still commits and answers `{"ok": True}`. -/
def hod_action (db : DB) (userOpt : Option User) (attendance_id : Nat) (action : String) (t : Nat) :
    DB × SingleResponse :=
  match userOpt with
  | none => (db, .unauthorized)
  | some user =>
    if user.role != "hod" then (db, .unauthorized)
    else if action == "Approved" then
      ({ db with attendance := setBoth "Approved" user.id t attendance_id db.attendance }, .ok)
    else if action == "Pending" then
      ({ db with attendance := setBoth "Pending" user.id t attendance_id db.attendance }, .ok)
    else if action == "Rejected" then
      ({ db with attendance := setBoth "Rejected" user.id t attendance_id db.attendance }, .ok)
    else (db, .ok)

/-- JSON response of `hod_bulk_action`. -/
inductive BulkResponse where
  | unauthorized
  | invalidRequest
  | ok (updated : List Nat)
deriving Repr, DecidableEq

/-- `hod_bulk_action` (`app.py`): validates that the id list is non-empty and
the action is one of the three statuses, then runs the UPDATE once per id and
answers `{"ok": True, "updated": attendance_ids}`. -/
def hod_bulk_action (db : DB) (userOpt : Option User) (attendance_ids : List Nat)
    (action : String) (t : Nat) : DB × BulkResponse :=
  match userOpt with
  | none => (db, .unauthorized)
  | some user =>
    if user.role != "hod" then (db, .unauthorized)
    else if attendance_ids.isEmpty
        || !(action == "Approved" || action == "Rejected" || action == "Pending") then
      (db, .invalidRequest)
    else
      ({ db with attendance :=
           attendance_ids.foldl (fun l aid => setBoth action user.id t aid l) db.attendance },
       .ok attendance_ids)

/-- One row of the digest selection query of `get_unsent_attendance_for_hod`. -/
structure DigestRow where
  title : String
  description : String
  attendance_id : Nat
  roll : String
  student_name : Option String
  scanned_at : Nat
  status : String
deriving Repr, DecidableEq

/-- `ORDER BY s.roll ASC, a.scanned_at ASC` as a Bool key relation. -/
def digestLeB (x y : DigestRow) : Bool :=
  decide (x.roll < y.roll) || (x.roll == y.roll && decide (x.scanned_at ≤ y.scanned_at))

/-- Propositional form of `digestLeB`, for `List.insertionSort`. -/
def digestLe (x y : DigestRow) : Prop :=
  digestLeB x y = true

instance : DecidableRel digestLe := fun x y => by
  unfold digestLe; infer_instance

/-- One attendance row of the digest selection query: the inner joins with
`events` and `students`, the branch restriction and the not-yet-sent test,
producing the selected tuple or nothing. -/
def digestRowFn (db : DB) (branchOpt : Option String) (email_time : String)
    (a : AttendanceRecord) : Option DigestRow :=
  match findEvent db a.event_id, findStudent db a.roll with
  | some e, some s =>
    if sqlEqS s.branch branchOpt && !hasMarker db a.id email_time then
      some ⟨e.title, e.description, a.id, s.roll, s.name, a.scanned_at, a.status⟩
    else none
  | _, _ => none

/-- `get_unsent_attendance_for_hod` (`email_service.py`): look the hod up by
email and role, then select attendance joined with `events` and `students`
(inner joins), restricted to the hod's branch and to records with no
`sent_emails` marker for this `email_time`, ordered by roll then scan time.
Returns `(None, [])` when no hod row matches. -/
def get_unsent_attendance_for_hod (db : DB) (hod_email email_time : String) :
    Option String × List DigestRow :=
  match db.users.find? (fun u => u.email == hod_email && u.role == "hod") with
  | none => (none, [])
  | some hod =>
    (hod.branch,
     List.insertionSort digestLe
       (db.attendance.filterMap (digestRowFn db hod.branch email_time)))

/-- One `INSERT OR IGNORE INTO sent_emails` (ignored when the
`UNIQUE(attendance_id, email_time)` constraint is already satisfied). -/
def markStep (email_time : String) (now : Nat) (db : DB) (aid : Nat) : DB :=
  if hasMarker db aid email_time then db
  else { db with sent_emails := db.sent_emails ++ [⟨db.next_sent_id, aid, now, email_time⟩],
                 next_sent_id := db.next_sent_id + 1 }

/-- `mark_attendance_as_sent` (`email_service.py`). -/
def mark_attendance_as_sent (db : DB) (attendance_ids : List Nat) (email_time : String)
    (now : Nat) : DB :=
  attendance_ids.foldl (markStep email_time now) db

/-- The body of the per-hod loop of `send_hod_attendance_reports`: skip when
the branch is falsy or the selection is empty; otherwise dispatch (outcome
given by the `sendOk` oracle) and, only on success, write the markers. -/
def processHod (db : DB) (email_time : String) (sendOk : String → Bool) (now : Nat)
    (hod_email : String) : DB :=
  if !pyTruthy (get_unsent_attendance_for_hod db hod_email email_time).1 then db
  else if (get_unsent_attendance_for_hod db hod_email email_time).2.isEmpty then db
  else if sendOk hod_email then
    mark_attendance_as_sent db
      ((get_unsent_attendance_for_hod db hod_email email_time).2.map (fun r => r.attendance_id))
      email_time now
  else db

/-- `SELECT email FROM users WHERE role='hod'`. -/
def hodEmailList (db : DB) : List String :=
  (db.users.filter (fun u => u.role == "hod")).map (fun u => u.email)

/-- Folding the per-hod step over a list of recipient addresses. -/
def digestFold (db : DB) (email_time : String) (sendOk : String → Bool) (now : Nat)
    (emails : List String) : DB :=
  emails.foldl (fun d e => processHod d email_time sendOk now e) db

/-- `send_hod_attendance_reports` (`email_service.py`): iterate the per-hod
step over every hod email (the recipient list is read once, and the loop
never touches the `users` table). -/
def send_hod_attendance_reports (db : DB) (email_time : String) (sendOk : String → Bool)
    (now : Nat) : DB :=
  digestFold db email_time sendOk now (hodEmailList db)

/-! ### Concrete database states used to instantiate the theorems -/

/-- A hod user with branch CS. -/
def exHod : User := ⟨1, "H", "h@x", "hod", some "CS"⟩

/-- An organiser user. -/
def exOrg : User := ⟨3, "O", "o@x", "organiser", none⟩

/-- A CS student. -/
def exStu : Student := ⟨"R1", some "N", some "CS"⟩

/-- An attendance record for event 1 and student R1. -/
def exAtt : AttendanceRecord := ⟨1, 1, "R1", 10, 3, "Pending", none, none⟩

/-- One hod, one CS student, one event, one unsent attendance record. -/
def exDb : DB :=
  ⟨[exHod, exOrg], [exStu], [⟨1, "T", "D"⟩], [exAtt], [], 2, 1⟩

/-- An attendance record whose `event_id` (42) matches no event row. -/
def exAttNoEvent : AttendanceRecord := ⟨1, 42, "R1", 10, 3, "Pending", none, none⟩

/-- Like `exDb` but the attendance record references a nonexistent event. -/
def exDbNoEvent : DB :=
  ⟨[exHod, exOrg], [exStu], [⟨1, "T", "D"⟩], [exAttNoEvent], [], 2, 1⟩

/-- An attendance record whose roll (`"RX"`) matches no student row. -/
def exAttNoStu : AttendanceRecord := ⟨2, 1, "RX", 11, 3, "Pending", none, none⟩

/-- Like `exDb` plus a record scanned for an unknown roll. -/
def exDbNoStu : DB :=
  ⟨[exHod, exOrg], [exStu], [⟨1, "T", "D"⟩], [exAtt, exAttNoStu], [], 3, 1⟩

/-- Records 5 and 9 exist; id 9999 does not. -/
def exDbBulk : DB :=
  ⟨[exHod, exOrg], [exStu], [⟨1, "T", "D"⟩],
   [⟨5, 1, "R1", 10, 3, "Pending", none, none⟩, ⟨9, 1, "R1", 12, 3, "Pending", none, none⟩],
   [], 10, 1⟩

/-- Extracts the counts object of an `add_scan` response. -/
def scanCounts : ScanResponse → List (String × Nat)
  | .ok _ _ c => c
  | _ => []

/-! ### Helper lemmas -/

theorem sqlEqS_eq_true_iff {x y : Option String} :
    sqlEqS x y = true ↔ ∃ b, x = some b ∧ y = some b := by
  cases x <;> cases y <;> simp [sqlEqS]
  exact eq_comm

theorem pyInStr_organiser : pyInStr "organiser" "organiser" = true := by decide

theorem pyInStr_hod : pyInStr "hod" "organiser" = false := by decide

theorem mem_setBoth {r : AttendanceRecord} {act : String} {hid t aid : Nat}
    {l : List AttendanceRecord} (h : r ∈ setBoth act hid t aid l) :
    r ∈ l ∨ (r.status = act ∧ r.hod_id = some hid ∧ r.hod_action_at = some t) := by
  rcases List.mem_map.mp h with ⟨a, _, rfl⟩
  by_cases hid' : a.id == aid
  · right; simp [hid']
  · left; simpa [hid'] using ‹a ∈ l›

theorem mem_bulkFold {r : AttendanceRecord} {act : String} {hid t : Nat}
    {ids : List Nat} {l : List AttendanceRecord}
    (h : r ∈ ids.foldl (fun l aid => setBoth act hid t aid l) l) :
    r ∈ l ∨ (r.status = act ∧ r.hod_id = some hid ∧ r.hod_action_at = some t) := by
  induction ids generalizing l with
  | nil => exact Or.inl h
  | cons aid rest ih =>
    rcases @ih (setBoth act hid t aid l) h with h' | h'
    · exact mem_setBoth h'
    · exact Or.inr h'

theorem bulkFold_eq (act : String) (hid t : Nat) (ids : List Nat)
    (l : List AttendanceRecord) :
    ids.foldl (fun l aid => setBoth act hid t aid l) l =
      l.map (fun a =>
        if a.id ∈ ids then
          { a with status := act, hod_id := some hid, hod_action_at := some t }
        else a) := by
  induction ids generalizing l with
  | nil => simp
  | cons aid rest ih =>
    show rest.foldl _ (setBoth act hid t aid l) = _
    rw [ih, setBoth, List.map_map]
    apply List.map_congr_left
    intro a _
    obtain ⟨i, ev, ro, sc, og, st, hi, ha⟩ := a
    simp only [Function.comp_apply]
    by_cases h1 : i = aid <;> by_cases h2 : i ∈ rest <;> simp [h1, h2]

theorem hasMarker_markStep_mono {db : DB} {aid : Nat} {tm T : String} {now : Nat} {aid' : Nat}
    (h : hasMarker db aid tm = true) : hasMarker (markStep T now db aid') aid tm = true := by
  unfold markStep
  split
  · exact h
  · simp only [hasMarker, List.any_append, Bool.or_eq_true] at *
    exact Or.inl h

theorem hasMarker_markStep_self (db : DB) (T : String) (now aid : Nat) :
    hasMarker (markStep T now db aid) aid T = true := by
  unfold markStep
  split
  · assumption
  · simp [hasMarker, List.any_append]

theorem hasMarker_markStep_new {db : DB} {aid : Nat} {tm T : String} {now aid' : Nat}
    (h : hasMarker (markStep T now db aid') aid tm = true) :
    hasMarker db aid tm = true ∨ (aid = aid' ∧ tm = T) := by
  unfold markStep at h
  split at h
  · exact Or.inl h
  · simp only [hasMarker, List.any_append, Bool.or_eq_true] at h
    rcases h with h | h
    · exact Or.inl h
    · simp only [List.any_cons, List.any_nil, Bool.or_false, Bool.and_eq_true, beq_iff_eq] at h
      exact Or.inr ⟨h.1.symm, h.2.symm⟩

theorem markStep_preserves (T : String) (now : Nat) (db : DB) (aid : Nat) :
    (markStep T now db aid).users = db.users ∧
    (markStep T now db aid).students = db.students ∧
    (markStep T now db aid).events = db.events ∧
    (markStep T now db aid).attendance = db.attendance := by
  unfold markStep; split <;> simp

theorem hasMarker_mark_mono {ids : List Nat} {db : DB} {aid : Nat} {tm T : String} {now : Nat}
    (h : hasMarker db aid tm = true) :
    hasMarker (mark_attendance_as_sent db ids T now) aid tm = true := by
  induction ids generalizing db with
  | nil => exact h
  | cons x rest ih => exact ih (hasMarker_markStep_mono h)

theorem hasMarker_mark_self {ids : List Nat} {db : DB} {aid : Nat} {T : String} {now : Nat}
    (h : aid ∈ ids) : hasMarker (mark_attendance_as_sent db ids T now) aid T = true := by
  induction ids generalizing db with
  | nil => cases h
  | cons x rest ih =>
    rcases List.mem_cons.mp h with rfl | h'
    · show hasMarker (mark_attendance_as_sent (markStep T now db aid) rest T now) aid T = true
      exact hasMarker_mark_mono (hasMarker_markStep_self db T now aid)
    · exact ih h'

theorem hasMarker_mark_new {ids : List Nat} {db : DB} {aid : Nat} {tm T : String} {now : Nat}
    (h : hasMarker (mark_attendance_as_sent db ids T now) aid tm = true) :
    hasMarker db aid tm = true ∨ (aid ∈ ids ∧ tm = T) := by
  induction ids generalizing db with
  | nil => exact Or.inl h
  | cons x rest ih =>
    rcases @ih (markStep T now db x) h with h' | h'
    · rcases hasMarker_markStep_new h' with h'' | ⟨rfl, rfl⟩
      · exact Or.inl h''
      · exact Or.inr ⟨List.mem_cons_self _ _, rfl⟩
    · exact Or.inr ⟨List.mem_cons_of_mem _ h'.1, h'.2⟩

theorem mark_preserves (db : DB) (ids : List Nat) (T : String) (now : Nat) :
    (mark_attendance_as_sent db ids T now).users = db.users ∧
    (mark_attendance_as_sent db ids T now).students = db.students ∧
    (mark_attendance_as_sent db ids T now).events = db.events ∧
    (mark_attendance_as_sent db ids T now).attendance = db.attendance := by
  induction ids generalizing db with
  | nil => exact ⟨rfl, rfl, rfl, rfl⟩
  | cons x rest ih =>
    have h1 := markStep_preserves T now db x
    have h2 := @ih (markStep T now db x)
    exact ⟨h2.1.trans h1.1, h2.2.1.trans h1.2.1, h2.2.2.1.trans h1.2.2.1, h2.2.2.2.trans h1.2.2.2⟩

theorem processHod_preserves (db : DB) (T : String) (sendOk : String → Bool) (now : Nat)
    (e : String) :
    (processHod db T sendOk now e).users = db.users ∧
    (processHod db T sendOk now e).students = db.students ∧
    (processHod db T sendOk now e).events = db.events ∧
    (processHod db T sendOk now e).attendance = db.attendance := by
  unfold processHod
  split
  · exact ⟨rfl, rfl, rfl, rfl⟩
  · split
    · exact ⟨rfl, rfl, rfl, rfl⟩
    · split
      · exact mark_preserves _ _ _ _
      · exact ⟨rfl, rfl, rfl, rfl⟩

theorem hasMarker_processHod_mono {db : DB} {T : String} {sendOk : String → Bool} {now : Nat}
    {e : String} {aid : Nat} {tm : String} (h : hasMarker db aid tm = true) :
    hasMarker (processHod db T sendOk now e) aid tm = true := by
  unfold processHod
  split
  · exact h
  · split
    · exact h
    · split
      · exact hasMarker_mark_mono h
      · exact h

theorem digestFold_preserves (db : DB) (T : String) (sendOk : String → Bool) (now : Nat)
    (emails : List String) :
    (digestFold db T sendOk now emails).users = db.users ∧
    (digestFold db T sendOk now emails).students = db.students ∧
    (digestFold db T sendOk now emails).events = db.events ∧
    (digestFold db T sendOk now emails).attendance = db.attendance := by
  induction emails generalizing db with
  | nil => exact ⟨rfl, rfl, rfl, rfl⟩
  | cons x rest ih =>
    have h1 := processHod_preserves db T sendOk now x
    have h2 := @ih (processHod db T sendOk now x)
    exact ⟨h2.1.trans h1.1, h2.2.1.trans h1.2.1, h2.2.2.1.trans h1.2.2.1, h2.2.2.2.trans h1.2.2.2⟩

theorem hasMarker_digestFold_mono {db : DB} {T : String} {sendOk : String → Bool} {now : Nat}
    {emails : List String} {aid : Nat} {tm : String} (h : hasMarker db aid tm = true) :
    hasMarker (digestFold db T sendOk now emails) aid tm = true := by
  induction emails generalizing db with
  | nil => exact h
  | cons x rest ih => exact ih (hasMarker_processHod_mono h)

theorem digestRowFn_some_iff {db : DB} {b : Option String} {T : String}
    {a : AttendanceRecord} {r : DigestRow} :
    digestRowFn db b T a = some r ↔
      ∃ e, findEvent db a.event_id = some e ∧
        ∃ s, findStudent db a.roll = some s ∧
          sqlEqS s.branch b = true ∧ hasMarker db a.id T = false ∧
          r = ⟨e.title, e.description, a.id, s.roll, s.name, a.scanned_at, a.status⟩ := by
  unfold digestRowFn
  cases hfe : findEvent db a.event_id with
  | none => simp
  | some e =>
    cases hfs : findStudent db a.roll with
    | none => simp
    | some s =>
      by_cases hb : sqlEqS s.branch b = true
      · by_cases hm : hasMarker db a.id T = false
        · simp only [hb, hm, Bool.not_false, Bool.and_self, if_true, Option.some.injEq,
            Option.some.injEq, exists_eq_left']
          simp [eq_comm]
        · simp only [Bool.not_eq_false] at hm
          simp [hb, hm]
      · simp [hb]

theorem mem_sel_iff {db : DB} {hod_email T : String} {u : User} {r : DigestRow}
    (hu : db.users.find? (fun v => v.email == hod_email && v.role == "hod") = some u) :
    r ∈ (get_unsent_attendance_for_hod db hod_email T).2 ↔
      ∃ a ∈ db.attendance, digestRowFn db u.branch T a = some r := by
  unfold get_unsent_attendance_for_hod
  rw [hu]
  simp only [List.mem_insertionSort, List.mem_filterMap]

theorem sel_not_marked {db : DB} {hod_email T : String} {r : DigestRow}
    (hr : r ∈ (get_unsent_attendance_for_hod db hod_email T).2) :
    hasMarker db r.attendance_id T = false := by
  unfold get_unsent_attendance_for_hod at hr
  cases hu : db.users.find? (fun v => v.email == hod_email && v.role == "hod") with
  | none => rw [hu] at hr; cases hr
  | some u =>
    rw [hu] at hr
    simp only [List.mem_insertionSort, List.mem_filterMap] at hr
    rcases hr with ⟨a, _, hfn⟩
    rcases digestRowFn_some_iff.mp hfn with ⟨e, _, s, _, _, hm, rfl⟩
    exact hm

theorem sel_has_student {db : DB} {hod_email T : String} {r : DigestRow}
    (hr : r ∈ (get_unsent_attendance_for_hod db hod_email T).2) :
    ∃ a ∈ db.attendance, r.attendance_id = a.id ∧ ∃ s, findStudent db a.roll = some s := by
  unfold get_unsent_attendance_for_hod at hr
  cases hu : db.users.find? (fun v => v.email == hod_email && v.role == "hod") with
  | none => rw [hu] at hr; cases hr
  | some u =>
    rw [hu] at hr
    simp only [List.mem_insertionSort, List.mem_filterMap] at hr
    rcases hr with ⟨a, ha, hfn⟩
    rcases digestRowFn_some_iff.mp hfn with ⟨e, _, s, hs, _, _, rfl⟩
    exact ⟨a, ha, rfl, s, hs⟩

theorem processHod_marks {db : DB} {T : String} {sendOk : String → Bool} {now : Nat}
    {e : String} {r : DigestRow}
    (htru : pyTruthy (get_unsent_attendance_for_hod db e T).1 = true)
    (hsend : sendOk e = true)
    (hr : r ∈ (get_unsent_attendance_for_hod db e T).2) :
    hasMarker (processHod db T sendOk now e) r.attendance_id T = true := by
  have hne : (get_unsent_attendance_for_hod db e T).2.isEmpty = false := by
    cases hrows : (get_unsent_attendance_for_hod db e T).2 with
    | nil => rw [hrows] at hr; cases hr
    | cons x rest => rfl
  unfold processHod
  rw [htru, hne, hsend]
  simp only [Bool.not_true, Bool.false_eq_true, if_false, if_true]
  exact hasMarker_mark_self (List.mem_map_of_mem _ hr)

theorem processHod_fail {db : DB} {T : String} {sendOk : String → Bool} {now : Nat} {e : String}
    (hfail : sendOk e = false) : processHod db T sendOk now e = db := by
  simp [processHod, hfail]

theorem digestLe_iff {x y : DigestRow} :
    digestLe x y ↔ x.roll < y.roll ∨ (x.roll = y.roll ∧ x.scanned_at ≤ y.scanned_at) := by
  simp [digestLe, digestLeB, Bool.or_eq_true, Bool.and_eq_true, decide_eq_true_iff, beq_iff_eq]

instance : IsTotal DigestRow digestLe :=
  ⟨fun x y => by
    rw [digestLe_iff, digestLe_iff]
    rcases lt_trichotomy x.roll y.roll with h | h | h
    · exact Or.inl (Or.inl h)
    · rcases Nat.le_total x.scanned_at y.scanned_at with h' | h'
      · exact Or.inl (Or.inr ⟨h, h'⟩)
      · exact Or.inr (Or.inr ⟨h.symm, h'⟩)
    · exact Or.inr (Or.inl h)⟩

instance : IsTrans DigestRow digestLe :=
  ⟨fun x y z hxy hyz => by
    rw [digestLe_iff] at hxy hyz ⊢
    rcases hxy with h1 | ⟨e1, l1⟩ <;> rcases hyz with h2 | ⟨e2, l2⟩
    · exact Or.inl (h1.trans h2)
    · exact Or.inl (by rw [← e2]; exact h1)
    · exact Or.inl (by rw [e1]; exact h2)
    · exact Or.inr ⟨e1.trans e2, l1.trans l2⟩⟩

theorem sel_excludes_unknown {db : DB} {a : AttendanceRecord} {e T : String}
    (ha : a ∈ db.attendance) (hs : findStudent db a.roll = none)
    (hnd : (db.attendance.map (fun x => x.id)).Nodup) :
    ∀ r ∈ (get_unsent_attendance_for_hod db e T).2, r.attendance_id ≠ a.id := by
  intro r hr heq
  rcases sel_has_student hr with ⟨a', ha', hid, s, hs'⟩
  have haa : a' = a :=
    List.inj_on_of_nodup_map hnd ha' ha (by rw [← hid, heq])
  rw [haa, hs] at hs'
  cases hs'

theorem processHod_no_new_marker {db : DB} {T : String} {sendOk : String → Bool} {now : Nat}
    {e : String} {aid : Nat} {tm : String}
    (hfresh : hasMarker db aid tm = false)
    (hnosel : ∀ r ∈ (get_unsent_attendance_for_hod db e T).2, r.attendance_id ≠ aid) :
    hasMarker (processHod db T sendOk now e) aid tm = false := by
  unfold processHod
  split
  · exact hfresh
  · split
    · exact hfresh
    · split
      · rcases Bool.eq_false_or_eq_true
          (hasMarker (mark_attendance_as_sent db
            ((get_unsent_attendance_for_hod db e T).2.map (fun r => r.attendance_id))
            T now) aid tm) with h | h
        · exfalso
          rcases hasMarker_mark_new h with h' | ⟨hmem, rfl⟩
          · rw [hfresh] at h'; cases h'
          · rcases List.mem_map.mp hmem with ⟨r, hr, hrid⟩
            exact hnosel r hr hrid
        · exact h
      · exact hfresh

theorem digestFold_no_marker_unknown {db : DB} {a : AttendanceRecord} {T : String}
    {sendOk : String → Bool} {now : Nat} {tm : String} {emails : List String}
    (ha : a ∈ db.attendance) (hs : findStudent db a.roll = none)
    (hnd : (db.attendance.map (fun x => x.id)).Nodup)
    (hfresh : hasMarker db a.id tm = false) :
    hasMarker (digestFold db T sendOk now emails) a.id tm = false := by
  induction emails generalizing db with
  | nil => exact hfresh
  | cons e rest ih =>
    have hpres := processHod_preserves db T sendOk now e
    refine @ih (processHod db T sendOk now e) ?_ ?_ ?_ ?_
    · rw [hpres.2.2.2]; exact ha
    · show (processHod db T sendOk now e).students.find? (fun s => s.roll == a.roll) = none
      rw [hpres.2.1]; exact hs
    · rw [hpres.2.2.2]; exact hnd
    · exact processHod_no_new_marker hfresh (sel_excludes_unknown ha hs hnd)

theorem find?_append_right {α : Type} {p : α → Bool} {l1 l2 : List α}
    (h : ∀ x ∈ l1, p x = false) : (l1 ++ l2).find? p = l2.find? p := by
  induction l1 with
  | nil => rfl
  | cons x rest ih =>
    have hx := h x (List.mem_cons_self x rest)
    rw [List.cons_append, List.find?_cons_of_neg _ (by simp [hx]), ih]
    intro y hy
    exact h y (List.mem_cons_of_mem _ hy)

theorem add_scan_eq (db : DB) (u : User) (event_id : Nat) (roll : String) (now : Nat)
    (hin : pyInStr u.role "organiser" = true)
    (hfresh : ∀ a ∈ db.attendance, a.id ≠ db.next_attendance_id) :
    add_scan db (some u) event_id roll now =
      (scanDb db u event_id roll now,
       .ok now
         (some (leftJoinStudent (scanDb db u event_id roll now) (scanInsert db u event_id roll now)))
         [("total", countTotal (scanDb db u event_id roll now) event_id),
          ("pending", countStatus (scanDb db u event_id roll now) event_id "Pending"),
          ("approved", countStatus (scanDb db u event_id roll now) event_id "Approved")]) := by
  have hfind : (db.attendance ++ [scanInsert db u event_id roll now]).find?
      (fun a => a.id == db.next_attendance_id) = some (scanInsert db u event_id roll now) := by
    rw [find?_append_right]
    · simp [List.find?, scanInsert]
    · intro x hx
      exact beq_eq_false_iff_ne.mpr (hfresh x hx)
  unfold add_scan
  simp only [hin, Bool.not_true, Bool.false_eq_true, if_false]
  show (_, ScanResponse.ok now
      (((db.attendance ++ [scanInsert db u event_id roll now]).find?
          (fun a => a.id == db.next_attendance_id)).map
        (leftJoinStudent (scanDb db u event_id roll now))) _) = _
  rw [hfind]
  rfl

/-! ### Claim theorems -/

/-- Claim C4: for every valid scan (`recordScan` = `add_scan` invoked by an
organiser, with any event id and roll), the newly inserted AttendanceRecord
has status `Pending` (and null reviewer fields) — never any other initial
status. -/
theorem add_scan_creates_pending (db : DB) (u : User) (event_id : Nat) (roll : String)
    (now : Nat) (hrole : u.role = "organiser") :
    ∃ r, (add_scan db (some u) event_id roll now).1.attendance = db.attendance ++ [r] ∧
      r.status = "Pending" ∧ r.hod_id = none ∧ r.hod_action_at = none := by
  refine ⟨⟨db.next_attendance_id, event_id, roll, now, u.id, "Pending", none, none⟩,
    ?_, rfl, rfl, rfl⟩
  simp [add_scan, hrole, pyInStr_organiser]

/-- Witness for C4 at a concrete database. -/
theorem add_scan_creates_pending_witness :
    exOrg.role = "organiser" ∧
    ∃ r, (add_scan exDb (some exOrg) 1 "R9" 11).1.attendance = exDb.attendance ++ [r] ∧
      r.status = "Pending" ∧ r.hod_id = none ∧ r.hod_action_at = none :=
  ⟨rfl, add_scan_creates_pending exDb exOrg 1 "R9" 11 rfl⟩

/-- Counterexample for claim C5: the claim asserts the `add_scan` response
carries all four counts `{total, pending, approved, rejected}`, but the code
computes only `total`, `pending` and `approved`; at this concrete scan the
response has no `rejected` count at all. -/
theorem add_scan_counts_cex :
    (scanCounts (add_scan exDb (some exOrg) 1 "R1" 7).2).lookup "rejected" ≠
      some (countStatus (add_scan exDb (some exOrg) 1 "R1" 7).1 1 "Rejected") := by
  decide

/-- Claim C5 as amended: for every successful `add_scan`, the response carries
the created record plus live counts for the event comprising exactly
`{total, pending, approved}` (no `rejected` count), each equal to the
corresponding count of attendance rows for the event after the insert. -/
theorem add_scan_counts_amended (db : DB) (u : User) (event_id : Nat) (roll : String)
    (now : Nat) (hrole : u.role = "organiser")
    (hfresh : ∀ a ∈ db.attendance, a.id ≠ db.next_attendance_id) :
    ∃ c j, (add_scan db (some u) event_id roll now).2 = .ok now (some j) c ∧
      j.attRec = ⟨db.next_attendance_id, event_id, roll, now, u.id, "Pending", none, none⟩ ∧
      c.lookup "total" = some (countTotal (add_scan db (some u) event_id roll now).1 event_id) ∧
      c.lookup "pending" =
        some (countStatus (add_scan db (some u) event_id roll now).1 event_id "Pending") ∧
      c.lookup "approved" =
        some (countStatus (add_scan db (some u) event_id roll now).1 event_id "Approved") ∧
      c.lookup "rejected" = none := by
  have heq := add_scan_eq db u event_id roll now
    (by rw [hrole]; exact pyInStr_organiser) hfresh
  rw [heq]
  refine ⟨_, _, rfl, ?_, rfl, rfl, rfl, rfl⟩
  show (leftJoinStudent (scanDb db u event_id roll now) (scanInsert db u event_id roll now)).attRec
    = _
  unfold leftJoinStudent
  split <;> rfl

/-- Witness for the amended C5 at a concrete database. -/
theorem add_scan_counts_amended_witness :
    exOrg.role = "organiser" ∧ (∀ a ∈ exDb.attendance, a.id ≠ exDb.next_attendance_id) ∧
    ∃ c j, (add_scan exDb (some exOrg) 1 "R9" 11).2 = .ok 11 (some j) c ∧
      j.attRec = ⟨exDb.next_attendance_id, 1, "R9", 11, exOrg.id, "Pending", none, none⟩ ∧
      c.lookup "total" = some (countTotal (add_scan exDb (some exOrg) 1 "R9" 11).1 1) ∧
      c.lookup "pending" =
        some (countStatus (add_scan exDb (some exOrg) 1 "R9" 11).1 1 "Pending") ∧
      c.lookup "approved" =
        some (countStatus (add_scan exDb (some exOrg) 1 "R9" 11).1 1 "Approved") ∧
      c.lookup "rejected" = none :=
  ⟨rfl, by decide, add_scan_counts_amended exDb exOrg 1 "R9" 11 rfl (by decide)⟩

/-- Claim C6: every status transition applied via `hod_action` or
`hod_bulk_action` sets the reviewer (`hod_id`) and the review timestamp
(`hod_action_at`) together, in the same update: every record in the resulting
attendance table is either untouched (still a record of the old table) or has
both reviewer fields set.  In particular the invariant "both set or both
null" is preserved. -/
theorem reviewer_fields_set_together (db : DB) (u : User) (aid : Nat) (ids : List Nat)
    (act : String) (t : Nat) :
    (∀ r ∈ (hod_action db (some u) aid act t).1.attendance,
       r ∈ db.attendance ∨ (r.hod_id = some u.id ∧ r.hod_action_at = some t)) ∧
    (∀ r ∈ (hod_bulk_action db (some u) ids act t).1.attendance,
       r ∈ db.attendance ∨ (r.hod_id = some u.id ∧ r.hod_action_at = some t)) := by
  constructor
  · intro r hr
    simp only [hod_action] at hr
    by_cases hro : (u.role != "hod") = true
    · rw [if_pos hro] at hr; exact Or.inl hr
    · rw [if_neg hro] at hr
      by_cases ha1 : (act == "Approved") = true
      · rw [if_pos ha1] at hr
        rcases mem_setBoth hr with h | h
        · exact Or.inl h
        · exact Or.inr ⟨h.2.1, h.2.2⟩
      · rw [if_neg ha1] at hr
        by_cases ha2 : (act == "Pending") = true
        · rw [if_pos ha2] at hr
          rcases mem_setBoth hr with h | h
          · exact Or.inl h
          · exact Or.inr ⟨h.2.1, h.2.2⟩
        · rw [if_neg ha2] at hr
          by_cases ha3 : (act == "Rejected") = true
          · rw [if_pos ha3] at hr
            rcases mem_setBoth hr with h | h
            · exact Or.inl h
            · exact Or.inr ⟨h.2.1, h.2.2⟩
          · rw [if_neg ha3] at hr
            exact Or.inl hr
  · intro r hr
    simp only [hod_bulk_action] at hr
    by_cases hro : (u.role != "hod") = true
    · rw [if_pos hro] at hr; exact Or.inl hr
    · rw [if_neg hro] at hr
      by_cases hg :
          (ids.isEmpty || !(act == "Approved" || act == "Rejected" || act == "Pending")) = true
      · rw [if_pos hg] at hr; exact Or.inl hr
      · rw [if_neg hg] at hr
        rcases mem_bulkFold hr with h | h
        · exact Or.inl h
        · exact Or.inr ⟨h.2.1, h.2.2⟩

/-- Counterexample for claim C7: the claim asserts that an action value
outside `{Approved, Rejected, Pending}` is rejected as a validation error by
both operations; but `hod_action` with the unrecognised action `"Destroy"`
falls through every branch, modifies nothing, and still answers
`{"ok": True}` — a silent success, not a reported validation error. -/
theorem hod_action_invalid_silent_cex :
    hod_action exDb (some exHod) 1 "Destroy" 3 = (exDb, SingleResponse.ok) := by
  decide

/-- Claim C7 as amended: for `hod_bulk_action`, an action value outside
`{Approved, Rejected, Pending}` is rejected as a validation error
(`invalid request`, HTTP 400) and no attendance record is modified; for
`hod_action`, such an action modifies no attendance record either, but the
operation reports success (`{"ok": True}`) instead of a validation error. -/
theorem invalid_action_amended (db : DB) (u : User) (aid : Nat) (ids : List Nat)
    (act : String) (t : Nat) (hrole : u.role = "hod")
    (h1 : act ≠ "Approved") (h2 : act ≠ "Rejected") (h3 : act ≠ "Pending") :
    hod_bulk_action db (some u) ids act t = (db, .invalidRequest) ∧
    hod_action db (some u) aid act t = (db, .ok) := by
  have e1 : (act == "Approved") = false := beq_eq_false_iff_ne.mpr h1
  have e2 : (act == "Rejected") = false := beq_eq_false_iff_ne.mpr h2
  have e3 : (act == "Pending") = false := beq_eq_false_iff_ne.mpr h3
  constructor
  · unfold hod_bulk_action
    simp [hrole, e1, e2, e3]
  · unfold hod_action
    simp [hrole, e1, e2, e3]

/-- Witness for the amended C7 at a concrete database. -/
theorem invalid_action_amended_witness :
    exHod.role = "hod" ∧
    hod_bulk_action exDb (some exHod) [1] "Destroy" 3 = (exDb, .invalidRequest) ∧
    hod_action exDb (some exHod) 1 "Destroy" 3 = (exDb, .ok) :=
  ⟨rfl, invalid_action_amended exDb exHod 1 [1] "Destroy" 3 rfl
    (by decide) (by decide) (by decide)⟩

/-- Claim C8: a bulk action whose id set mixes existing and nonexistent
attendance ids updates every existing id in the set to the requested status
(setting both reviewer fields), leaves every other record untouched, is not
rolled back because of the nonexistent ids, and reports success together
with the updated-id set. -/
theorem bulk_action_partial_ids (db : DB) (u : User) (ids : List Nat) (act : String) (t : Nat)
    (hrole : u.role = "hod") (hne : ids ≠ [])
    (hact : act = "Approved" ∨ act = "Rejected" ∨ act = "Pending") :
    (hod_bulk_action db (some u) ids act t).2 = .ok ids ∧
    (hod_bulk_action db (some u) ids act t).1.attendance =
      db.attendance.map (fun a =>
        if a.id ∈ ids then
          { a with status := act, hod_id := some u.id, hod_action_at := some t }
        else a) := by
  have hval : (act == "Approved" || act == "Rejected" || act == "Pending") = true := by
    rcases hact with rfl | rfl | rfl <;> simp
  have hemp : ids.isEmpty = false := by
    cases ids with
    | nil => exact absurd rfl hne
    | cons x rest => rfl
  have hro : (u.role != "hod") = false := by rw [hrole]; rfl
  have hcond :
      (ids.isEmpty || !(act == "Approved" || act == "Rejected" || act == "Pending")) = false := by
    rw [hemp, hval]; rfl
  simp only [hod_bulk_action, hro, hcond, Bool.false_eq_true, if_false]
  exact ⟨trivial, bulkFold_eq act u.id t ids db.attendance⟩

/-- Witness for C8: bulk `Approved` on ids `[5, 9, 9999]` where 9999 does not
exist — 5 and 9 are updated, nothing is lost, and the call reports success. -/
theorem bulk_action_partial_ids_witness :
    exHod.role = "hod" ∧
    (hod_bulk_action exDbBulk (some exHod) [5, 9, 9999] "Approved" 3).2 = .ok [5, 9, 9999] ∧
    (hod_bulk_action exDbBulk (some exHod) [5, 9, 9999] "Approved" 3).1.attendance =
      exDbBulk.attendance.map (fun a =>
        if a.id ∈ [5, 9, 9999] then
          { a with status := "Approved", hod_id := some exHod.id, hod_action_at := some 3 }
        else a) :=
  ⟨rfl, bulk_action_partial_ids exDbBulk exHod [5, 9, 9999] "Approved" 3 rfl
    (by decide) (Or.inl rfl)⟩

/-- Claim C2: if email dispatch for a hod fails, that hod's digest step writes
no `sent_emails` marker rows and leaves the database unchanged, so a
subsequent selection at the same timeslot label returns exactly the same
records (retry-by-recurrence). -/
theorem dispatch_failure_no_markers (db : DB) (T : String) (sendOk : String → Bool)
    (now : Nat) (h : String) (hfail : sendOk h = false) :
    processHod db T sendOk now h = db ∧
    (processHod db T sendOk now h).sent_emails = db.sent_emails ∧
    get_unsent_attendance_for_hod (processHod db T sendOk now h) h T =
      get_unsent_attendance_for_hod db h T := by
  have he : processHod db T sendOk now h = db := processHod_fail hfail
  exact ⟨he, by rw [he], by rw [he]⟩

/-- Witness for C2 at a concrete database with a failing transport. -/
theorem dispatch_failure_no_markers_witness :
    (fun _ : String => false) "h@x" = false ∧
    processHod exDb "12:30" (fun _ => false) 5 "h@x" = exDb ∧
    (processHod exDb "12:30" (fun _ => false) 5 "h@x").sent_emails = exDb.sent_emails ∧
    get_unsent_attendance_for_hod (processHod exDb "12:30" (fun _ => false) 5 "h@x") "h@x" "12:30" =
      get_unsent_attendance_for_hod exDb "h@x" "12:30" :=
  ⟨rfl, dispatch_failure_no_markers exDb "12:30" (fun _ => false) 5 "h@x" rfl⟩

/-- Claim C3: for every event listing served to a viewer with role `hod` and
branch `B` (`view_event`), and for every digest selection for a hod with
branch `B` (`get_unsent_attendance_for_hod`), every returned attendance
record's joined student branch equals `B`; no record whose student belongs to
a different branch ever appears. -/
theorem hod_scoped_listings_branch (db : DB) (eid : Nat) (sk : SortKey) (u : User) (B : String)
    (hodEmail T : String) (hodU : User)
    (hrole : u.role = "hod") (hbranch : u.branch = some B)
    (hfind : db.users.find? (fun v => v.email == hodEmail && v.role == "hod") = some hodU)
    (hbranch2 : hodU.branch = some B) :
    (∀ rows, view_event db (some u) eid sk = .hodView rows → ∀ j ∈ rows, j.branch = some B) ∧
    (∀ r ∈ (get_unsent_attendance_for_hod db hodEmail T).2,
       ∃ s, findStudent db r.roll = some s ∧ s.branch = some B) := by
  constructor
  · intro rows hv j hj
    simp only [view_event] at hv
    cases hfe : findEvent db eid with
    | none => rw [hfe] at hv; cases hv
    | some ev =>
      rw [hfe] at hv
      have hin : pyInStr u.role "organiser" = false := by rw [hrole]; exact pyInStr_hod
      have hbe : (u.role == "hod") = true := by rw [hrole]; rfl
      simp only [hin, Bool.false_eq_true, if_false, hbe, if_true] at hv
      injection hv with hrows
      rw [← hrows] at hj
      rw [List.mem_insertionSort, List.mem_filter] at hj
      rcases sqlEqS_eq_true_iff.mp hj.2 with ⟨b, hb1, hb2⟩
      rw [hbranch] at hb2
      rw [hb1, Option.some.inj hb2]
  · intro r hr
    rw [mem_sel_iff hfind] at hr
    rcases hr with ⟨a, ha, hfn⟩
    rcases digestRowFn_some_iff.mp hfn with ⟨e, he, s, hs, hsb, hm, rfl⟩
    have hroll : (s.roll == a.roll) = true := by
      have := List.find?_some hs
      exact this
    rw [hbranch2] at hsb
    rcases sqlEqS_eq_true_iff.mp hsb with ⟨b, hb1, hb2⟩
    refine ⟨s, ?_, ?_⟩
    · show findStudent db s.roll = some s
      rw [beq_iff_eq.mp hroll]
      exact hs
    · rw [hb1, Option.some.inj hb2]

/-- Witness for C3 at a concrete database, instantiated at the one row of the
hod's event listing and the one row of the digest selection. -/
theorem hod_scoped_listings_branch_witness :
    exHod.role = "hod" ∧ exHod.branch = some "CS" ∧
    exDb.users.find? (fun v => v.email == "h@x" && v.role == "hod") = some exHod ∧
    view_event exDb (some exHod) 1 .byRoll =
      .hodView [⟨exAtt, some "R1", some "N", some "CS"⟩] ∧
    (⟨exAtt, some "R1", some "N", some "CS"⟩ : JoinedRow).branch = some "CS" ∧
    (∃ s, findStudent exDb (⟨"T", "D", 1, "R1", some "N", 10, "Pending"⟩ : DigestRow).roll
      = some s ∧ s.branch = some "CS") := by
  have h := hod_scoped_listings_branch exDb 1 .byRoll exHod "CS" "h@x" "12:30" exHod
    rfl rfl (by decide) rfl
  exact ⟨rfl, rfl, by decide, by decide,
    h.1 [⟨exAtt, some "R1", some "N", some "CS"⟩] (by decide) _ (by decide),
    h.2 ⟨"T", "D", 1, "R1", some "N", 10, "Pending"⟩ (by decide)⟩

/-- Counterexample for claim C9: the claim says the digest selection is
exactly the records whose student branch matches and which carry no marker;
but the query also inner-joins `events`, so a record whose `event_id`
resolves to no event row (which `add_scan` permits: it never validates the
event id) is dropped even though it meets both stated criteria.  Here the
record meets the claim's criteria yet the selection is empty. -/
theorem digest_selection_exact_cex :
    exDbNoEvent.users.find? (fun v => v.email == "h@x" && v.role == "hod") = some exHod ∧
    exHod.branch = some "CS" ∧
    exAttNoEvent ∈ exDbNoEvent.attendance ∧
    findStudent exDbNoEvent exAttNoEvent.roll = some exStu ∧
    exStu.branch = some "CS" ∧
    hasMarker exDbNoEvent exAttNoEvent.id "12:30" = false ∧
    (get_unsent_attendance_for_hod exDbNoEvent "h@x" "12:30").2 = [] := by
  decide

/-- Claim C9 as amended: the digest selection for a hod at timeslot label `T`
consists exactly of the attendance records whose referenced event exists,
whose student's branch equals the hod's branch, and for which no
`sent_emails` marker exists for `(record, T)`; and the selection is ordered
by student roll ascending, then scan timestamp ascending. -/
theorem digest_selection_exact_amended (db : DB) (hodEmail T : String) (u : User)
    (hu : db.users.find? (fun v => v.email == hodEmail && v.role == "hod") = some u) :
    (∀ r, r ∈ (get_unsent_attendance_for_hod db hodEmail T).2 ↔
       ∃ a ∈ db.attendance, ∃ e, findEvent db a.event_id = some e ∧
         ∃ s, findStudent db a.roll = some s ∧
           (∃ b, s.branch = some b ∧ u.branch = some b) ∧
           hasMarker db a.id T = false ∧
           r = ⟨e.title, e.description, a.id, s.roll, s.name, a.scanned_at, a.status⟩) ∧
    List.Sorted digestLe (get_unsent_attendance_for_hod db hodEmail T).2 := by
  constructor
  · intro r
    rw [mem_sel_iff hu]
    constructor
    · rintro ⟨a, ha, hfn⟩
      rcases digestRowFn_some_iff.mp hfn with ⟨e, he, s, hs, hsb, hm, rfl⟩
      exact ⟨a, ha, e, he, s, hs, sqlEqS_eq_true_iff.mp hsb, hm, rfl⟩
    · rintro ⟨a, ha, e, he, s, hs, hb, hm, rfl⟩
      exact ⟨a, ha, digestRowFn_some_iff.mpr ⟨e, he, s, hs, sqlEqS_eq_true_iff.mpr hb, hm, rfl⟩⟩
  · show List.Sorted digestLe _
    unfold get_unsent_attendance_for_hod
    rw [hu]
    exact List.sorted_insertionSort digestLe _

/-- Witness for the amended C9 at a concrete database. -/
theorem digest_selection_exact_amended_witness :
    exDb.users.find? (fun v => v.email == "h@x" && v.role == "hod") = some exHod ∧
    List.Sorted digestLe (get_unsent_attendance_for_hod exDb "h@x" "12:30").2 :=
  ⟨by decide,
   (digest_selection_exact_amended exDb "h@x" "12:30" exHod (by decide)).2⟩

/-- Claim C1: `runDigest` is idempotent per timeslot label.  If, during a
first invocation of `send_hod_attendance_reports` at label `T`, the digest
for hod `h` is dispatched successfully (so the markers are written), then no
record of that dispatched selection is selected for `h` again by a second
invocation at the same label `T` — regardless of which hods precede `h` in
either run and of the second run's transport outcomes. -/
theorem runDigest_idempotent_per_slot (db : DB) (T : String) (send1 send2 : String → Bool)
    (now1 now2 : Nat) (pre post pre2 : List String) (h : String)
    (hsplit : hodEmailList db = pre ++ h :: post)
    (htru : pyTruthy (get_unsent_attendance_for_hod (digestFold db T send1 now1 pre) h T).1 = true)
    (hsend : send1 h = true) :
    ∀ r ∈ (get_unsent_attendance_for_hod (digestFold db T send1 now1 pre) h T).2,
      r.attendance_id ∉
        ((get_unsent_attendance_for_hod
            (digestFold (send_hod_attendance_reports db T send1 now1) T send2 now2 pre2) h T).2.map
          (fun x => x.attendance_id)) := by
  intro r hr hmem
  have hm1 : hasMarker (processHod (digestFold db T send1 now1 pre) T send1 now1 h)
      r.attendance_id T = true := processHod_marks htru hsend hr
  have hrun1 : send_hod_attendance_reports db T send1 now1 =
      digestFold (processHod (digestFold db T send1 now1 pre) T send1 now1 h) T send1 now1 post := by
    unfold send_hod_attendance_reports
    rw [hsplit]
    unfold digestFold
    rw [List.foldl_append]
    rfl
  have hm2 : hasMarker (send_hod_attendance_reports db T send1 now1) r.attendance_id T = true := by
    rw [hrun1]; exact hasMarker_digestFold_mono hm1
  have hm3 : hasMarker
      (digestFold (send_hod_attendance_reports db T send1 now1) T send2 now2 pre2)
      r.attendance_id T = true := hasMarker_digestFold_mono hm2
  rcases List.mem_map.mp hmem with ⟨r2, hr2, hid⟩
  have hnm := sel_not_marked hr2
  rw [hid] at hnm
  rw [hnm] at hm3
  cases hm3

/-- Witness for C1 at a concrete database with one hod, applied to the one
selected record of the first run. -/
theorem runDigest_idempotent_per_slot_witness :
    hodEmailList exDb = [] ++ "h@x" :: [] ∧
    pyTruthy (get_unsent_attendance_for_hod (digestFold exDb "12:30" (fun _ => true) 5 [])
      "h@x" "12:30").1 = true ∧
    (⟨"T", "D", 1, "R1", some "N", 10, "Pending"⟩ : DigestRow) ∈
      (get_unsent_attendance_for_hod (digestFold exDb "12:30" (fun _ => true) 5 [])
        "h@x" "12:30").2 ∧
    (⟨"T", "D", 1, "R1", some "N", 10, "Pending"⟩ : DigestRow).attendance_id ∉
      ((get_unsent_attendance_for_hod
          (digestFold (send_hod_attendance_reports exDb "12:30" (fun _ => true) 5)
            "12:30" (fun _ => true) 6 []) "h@x" "12:30").2.map
        (fun x => x.attendance_id)) := by
  refine ⟨by decide, by decide, by decide, ?_⟩
  exact runDigest_idempotent_per_slot exDb "12:30" (fun _ => true) (fun _ => true) 5 6
    [] [] [] "h@x" (by decide) (by decide) rfl _ (by decide)

/-- Claim C10: an attendance record whose roll matches no row of `students`
(a scan of an unknown roll, which `add_scan` permits) is invisible everywhere
except the organiser's unfiltered listing: it is never part of any digest
selection (the selection inner-joins `students`), never part of a hod-scoped
event listing (the branch filter excludes the NULL joined branch), and no
digest run ever writes a `sent_emails` marker for it; it does appear in the
organiser's event listing. -/
theorem unknown_roll_invisible (db : DB) (a : AttendanceRecord)
    (ha : a ∈ db.attendance) (hs : findStudent db a.roll = none)
    (hnd : (db.attendance.map (fun x => x.id)).Nodup) :
    (∀ hodEmail T, ∀ r ∈ (get_unsent_attendance_for_hod db hodEmail T).2,
       r.attendance_id ≠ a.id) ∧
    (∀ (u : User) (sk : SortKey) (rows : List JoinedRow), u.role = "hod" →
       view_event db (some u) a.event_id sk = .hodView rows → ∀ j ∈ rows, j.attRec ≠ a) ∧
    (∀ (u : User) (sk : SortKey) (rows : List JoinedRow), u.role = "organiser" →
       view_event db (some u) a.event_id sk = .organiserView rows →
       ∃ j ∈ rows, j.attRec = a) ∧
    (∀ (T : String) (sendOk : String → Bool) (now : Nat) (tm : String),
       hasMarker db a.id tm = false →
       hasMarker (send_hod_attendance_reports db T sendOk now) a.id tm = false) := by
  refine ⟨?_, ?_, ?_, ?_⟩
  · intro hodEmail T r hr
    exact sel_excludes_unknown ha hs hnd r hr
  · intro u sk rows hrole hv j hj heq
    simp only [view_event] at hv
    cases hfe : findEvent db a.event_id with
    | none => rw [hfe] at hv; cases hv
    | some ev =>
      rw [hfe] at hv
      have hin : pyInStr u.role "organiser" = false := by rw [hrole]; exact pyInStr_hod
      have hbe : (u.role == "hod") = true := by rw [hrole]; rfl
      simp only [hin, Bool.false_eq_true, if_false, hbe, if_true] at hv
      injection hv with hrows
      rw [← hrows] at hj
      rw [List.mem_insertionSort, List.mem_filter] at hj
      rcases hj with ⟨hjmem, hjbr⟩
      rcases List.mem_map.mp hjmem with ⟨a', _, rfl⟩
      have hrec : (leftJoinStudent db a').attRec = a' := by
        unfold leftJoinStudent; split <;> rfl
      rw [hrec] at heq
      subst heq
      rcases sqlEqS_eq_true_iff.mp hjbr with ⟨b, hb1, _⟩
      unfold leftJoinStudent at hb1
      rw [hs] at hb1
      cases hb1
  · intro u sk rows hrole hv
    simp only [view_event] at hv
    cases hfe : findEvent db a.event_id with
    | none => rw [hfe] at hv; cases hv
    | some ev =>
      rw [hfe] at hv
      have hin : pyInStr u.role "organiser" = true := by rw [hrole]; exact pyInStr_organiser
      rw [if_pos hin] at hv
      injection hv with hrows
      refine ⟨leftJoinStudent db a, ?_, by unfold leftJoinStudent; split <;> rfl⟩
      rw [← hrows, List.mem_insertionSort]
      exact List.mem_map_of_mem _ (List.mem_filter.mpr ⟨ha, by simp⟩)
  · intro T sendOk now tm hfresh
    exact digestFold_no_marker_unknown ha hs hnd hfresh

/-- Witness for C10 at a concrete database containing a record whose roll
`"RX"` matches no student. -/
theorem unknown_roll_invisible_witness :
    exAttNoStu ∈ exDbNoStu.attendance ∧
    findStudent exDbNoStu exAttNoStu.roll = none ∧
    (exDbNoStu.attendance.map (fun x => x.id)).Nodup ∧
    (⟨"T", "D", 1, "R1", some "N", 10, "Pending"⟩ : DigestRow) ∈
      (get_unsent_attendance_for_hod exDbNoStu "h@x" "12:30").2 ∧
    (⟨"T", "D", 1, "R1", some "N", 10, "Pending"⟩ : DigestRow).attendance_id ≠ exAttNoStu.id :=
  ⟨by decide, by decide, by decide, by decide,
   (unknown_roll_invisible exDbNoStu exAttNoStu (by decide) (by decide) (by decide)).1
     "h@x" "12:30" ⟨"T", "D", 1, "R1", some "N", 10, "Pending"⟩ (by decide)⟩

/-- Witness for C6: a concrete approval, instantiated at the updated record. -/
theorem reviewer_fields_set_together_witness :
    (⟨1, 1, "R1", 10, 3, "Approved", some 1, some 3⟩ : AttendanceRecord) ∈
      (hod_action exDb (some exHod) 1 "Approved" 3).1.attendance ∧
    ((⟨1, 1, "R1", 10, 3, "Approved", some 1, some 3⟩ : AttendanceRecord) ∈ exDb.attendance ∨
      ((⟨1, 1, "R1", 10, 3, "Approved", some 1, some 3⟩ : AttendanceRecord).hod_id
          = some exHod.id ∧
       (⟨1, 1, "R1", 10, 3, "Approved", some 1, some 3⟩ : AttendanceRecord).hod_action_at
          = some 3)) :=
  ⟨by decide,
   (reviewer_fields_set_together exDb exHod 1 [1] "Approved" 3).1
     ⟨1, 1, "R1", 10, 3, "Approved", some 1, some 3⟩ (by decide)⟩
